import Mathlib

/-!
Verification of the instrument-control protocol core of the Netsuite
test-bench repository: the channel-list validator, the per-function
parameter tables, the definite-length-block (DLB) reply decoder, the
overlapped-acquisition arm/poll/drain protocol and the limit checker.

Conventions of the shallow embedding:
* Python numbers (floats used for ranges, NPLC, periods, readings) are
  modelled exactly as rationals; none of the claims below depends on IEEE
  rounding.
* Python exceptions are modelled by `Except PyExc`; a Python function that
  can both `return False` and raise gets the type `Except PyExc (Option _)`
  or `Except PyExc Bool` as appropriate.
* SCPI commands written to the instrument are collected as structured
  values carrying exactly the data the source interpolates into the
  command strings.
-/

namespace Netsuite

/-- Python exception classes that the embedded code can raise. A
`transportError` stands for a failure of the VISA `write`/`ask` calls. -/
inductive PyExc : Type
  | indexError
  | valueError
  | zeroDivisionError
  | keyError
  | transportError
  deriving DecidableEq

instance {ε α : Type} [DecidableEq ε] [DecidableEq α] : DecidableEq (Except ε α) := fun a b =>
  match a, b with
  | .ok x, .ok y => decidable_of_iff (x = y) (by simp)
  | .error x, .error y => decidable_of_iff (x = y) (by simp)
  | .ok _, .error _ => .isFalse (by simp)
  | .error _, .ok _ => .isFalse (by simp)

/-- Value of a single decimal digit character; Python `int(c)` on a
one-character string succeeds exactly on digits (ASCII subset modelled). -/
def digitVal? (c : Char) : Option ℕ :=
  if c = '0' then some 0 else if c = '1' then some 1 else if c = '2' then some 2
  else if c = '3' then some 3 else if c = '4' then some 4 else if c = '5' then some 5
  else if c = '6' then some 6 else if c = '7' then some 7 else if c = '8' then some 8
  else if c = '9' then some 9 else none

/-- Python `str.strip()`: remove leading and trailing whitespace. -/
def stripCh (l : List Char) : List Char :=
  ((l.dropWhile Char.isWhitespace).reverse.dropWhile Char.isWhitespace).reverse

/-- Python `str.split(sep)` for a one-character separator; in particular
the empty string splits to `[""]`. -/
def splitCh (sep : Char) : List Char → List (List Char)
  | [] => [[]]
  | c :: cs =>
    if c = sep then [] :: splitCh sep cs
    else
      match splitCh sep cs with
      | [] => [[c]]
      | h :: t => (c :: h) :: t

/-- Big-endian accumulation of decimal digit values; `none` on the first
non-digit character. -/
def digitsLoop : List Char → ℕ → Option ℕ
  | [], acc => some acc
  | c :: cs, acc =>
    match digitVal? c with
    | none => none
    | some d => digitsLoop cs (10 * acc + d)

/-- Value of a nonempty all-digit character list; `none` otherwise. -/
def natDigits? (l : List Char) : Option ℕ :=
  match l with
  | [] => none
  | c :: cs => digitsLoop (c :: cs) 0

/-- Python `int(s)` on a string: strip whitespace, optional single sign,
then a nonempty run of decimal digits; a `ValueError` (modelled as `none`)
otherwise. -/
def pyInt? (l : List Char) : Option ℤ :=
  match stripCh l with
  | [] => none
  | c :: r =>
    if c = '+' then (natDigits? r).map fun n => (n : ℤ)
    else if c = '-' then (natDigits? r).map fun n => -(n : ℤ)
    else (natDigits? (c :: r)).map fun n => (n : ℤ)

/-- Python `str.upper()` (ASCII subset, character by character — enough for
the SCPI function names the sources use). -/
def pyUpper (s : String) : String := String.mk (s.data.map Char.toUpper)

/-- Longest run of decimal digits at the head of the list, and the rest. -/
def spanDigits : List Char → List Char × List Char
  | [] => ([], [])
  | c :: cs =>
    if '0' ≤ c ∧ c ≤ '9' then
      let p := spanDigits cs
      (c :: p.1, p.2)
    else ([], c :: cs)

/-- Value of an all-digit character list (callers guarantee digits). -/
def digitsToNat (l : List Char) : ℕ :=
  l.foldl (fun acc c => 10 * acc + (digitVal? c).getD 0) 0

/-- Python `float(s)` on finite decimal literals: whitespace-stripped
`[sign] (digits [. digits] | . digits) [(e|E) [sign] digits]`, with the
value taken exactly as a rational. The special spellings (`inf`, `nan`,
underscore separators) are outside the modelled subset; no claim below
touches them. -/
def pyFloat? (l : List Char) : Option ℚ :=
  let cs := stripCh l
  let sgncs : ℚ × List Char :=
    match cs with
    | '+' :: r => (1, r)
    | '-' :: r => (-1, r)
    | r => (1, r)
  let ip := spanDigits sgncs.2
  let fp : List Char × List Char :=
    match ip.2 with
    | '.' :: r => spanDigits r
    | r => ([], r)
  if ip.1 = [] ∧ fp.1 = [] then none
  else
    let mant : ℚ :=
      sgncs.1 * ((digitsToNat ip.1 : ℚ) + (digitsToNat fp.1 : ℚ) / ((10 : ℚ) ^ fp.1.length))
    match fp.2 with
    | [] => some mant
    | c :: r =>
      if c = 'e' ∨ c = 'E' then
        match r with
        | '+' :: rr =>
          let ed := spanDigits rr
          if ed.1 = [] ∨ ed.2 ≠ [] then none else some (mant * (10 : ℚ) ^ digitsToNat ed.1)
        | '-' :: rr =>
          let ed := spanDigits rr
          if ed.1 = [] ∨ ed.2 ≠ [] then none else some (mant / (10 : ℚ) ^ digitsToNat ed.1)
        | rr =>
          let ed := spanDigits rr
          if ed.1 = [] ∨ ed.2 ≠ [] then none else some (mant * (10 : ℚ) ^ digitsToNat ed.1)
      else none

/-- The definite-length-block branch of `Daq34972.waitOverlappedDone`
(src/cdaq34972.py lines 300-311): check that `reading[0]` is the marker,
read the single digit count `digits = int(reading[1])`, slice
`reading[2 + digits:]`, strip, and convert with `float(...)`.
`.ok none` models the Python `return False` on a missing marker;
`IndexError` (indexing a too-short string) and `ValueError` (from `int` or
`float`) are `.error`. Note: the source never parses the `digits` length
digits as a byte count; it only skips them. -/
def decodeDLB34972 (s : List Char) : Except PyExc (Option ℚ) :=
  match s with
  | [] => .error .indexError
  | c0 :: rest =>
    if c0 ≠ '#' then .ok none
    else
      match rest with
      | [] => .error .indexError
      | c1 :: _ =>
        match digitVal? c1 with
        | none => .error .valueError
        | some d =>
          match pyFloat? (stripCh ((c0 :: rest).drop (2 + d))) with
          | none => .error .valueError
          | some q => .ok (some q)

/-- The definite-length-block branch of `Dvm34411.waitOverlappedDone`
(src/cdvm34411.py lines 239-244): identical header handling, but the
sliced payload is only stripped and appended as a string — it is never
converted with `float`. -/
def decodeDLB34411 (s : List Char) : Except PyExc (Option (List Char)) :=
  match s with
  | [] => .error .indexError
  | c0 :: rest =>
    if c0 ≠ '#' then .ok none
    else
      match rest with
      | [] => .error .indexError
      | c1 :: _ =>
        match digitVal? c1 with
        | none => .error .valueError
        | some d => .ok (some (stripCh ((c0 :: rest).drop (2 + d))))

/-- One pass of `Daq34972.checkList` over the comma-separated items
(src/cdaq34972.py lines 330-348). Each item is stripped; an item that
contains a colon is unpacked by `split(":")` into exactly two parts
(`ValueError` otherwise), both converted with `int`; the order test
`fromCh > toCh` runs before the 101..399 endpoint validity test. A
singleton item is converted with `int` and tested against 101..440. -/
def checkItems34972 : List (List Char) → Except PyExc Bool
  | [] => .ok true
  | item :: rest =>
    let item := stripCh item
    if ':' ∈ item then
      match splitCh ':' item with
      | [a, b] =>
        match pyInt? a with
        | none => .error .valueError
        | some fromCh =>
          match pyInt? b with
          | none => .error .valueError
          | some toCh =>
            if fromCh > toCh then .ok false
            else if ¬(101 ≤ fromCh ∧ fromCh ≤ 399 ∧ 101 ≤ toCh ∧ toCh ≤ 399) then .ok false
            else checkItems34972 rest
      | _ => .error .valueError
    else
      match pyInt? item with
      | none => .error .valueError
      | some chan =>
        if ¬(101 ≤ chan ∧ chan ≤ 440) then .ok false
        else checkItems34972 rest

/-- `Daq34972.checkList` (src/cdaq34972.py lines 323-348): split the channel
list on commas and validate every item. -/
def checkList34972 (chlist : String) : Except PyExc Bool :=
  checkItems34972 (splitCh ',' chlist.data)

/-- The `rng` argument of the configuration calls: Python accepts the
default string "AUTO" or a number. -/
inductive RngArg : Type
  | auto
  | val (q : ℚ)
  deriving DecidableEq

/-- SCPI commands written by `Daq34972.configScan`, carrying exactly the
data the source interpolates into the command strings:
`conf` is CONF:func rng,scanList; `confDigByte` is CONF:DIG:BYTEscanList;
`confDef` is CONF:func DEF,scanList; `setNplc` is func:NPLC nplc. -/
inductive Cmd34972 : Type
  | conf (func : String) (rng : RngArg) (scanList : String)
  | confDigByte (scanList : String)
  | confDef (func : String) (scanList : String)
  | setNplc (func : String) (nplc : ℚ)
  deriving DecidableEq

/-- The per-function range dictionary of `Daq34972.configScan`
(src/cdaq34972.py lines 135-145); `none` models the empty tuple used for
functions without range support. -/
def ranges34972 : List (String × Option (ℚ × ℚ)) :=
  [("CURR:DC", some (1/100, 1)), ("CURR:AC", some (1/100, 1)),
   ("DIG", none), ("FREQ", none),
   ("FRES", some (100, 100000000)), ("PER", none),
   ("RES", some (100, 100000000)), ("TEMP", none), ("TOT", none),
   ("VOLT:DC", some (1/10, 300)), ("VOLT:AC", some (1/10, 300))]

/-- `Daq34972.configScan` (src/cdaq34972.py lines 113-190), modelled as the
pair (returned bool, SCPI commands written). Python comparison chaining
makes the source guard `func in list(ranges.keys()) == False` parse as
`(func in keys) and (keys == False)`; a list never compares equal to
`False`, so the guard can never fire — it is embedded as the dead
conjunction with `false` below. Unpacking `ranges[func]` for an unknown
function raises `KeyError`; unpacking the empty tuple raises `ValueError`
(both unreachable for the keys actually in the table). -/
def configScan34972 (scanList func : String) (rng : RngArg) (nplc : ℚ) :
    Except PyExc (Bool × List Cmd34972) := do
  let func := pyUpper func
  if (ranges34972.map Prod.fst).contains func && false then
    return (false, [])
  let noRange : List String := ["DIG", "FREQ", "PER", "TEMP", "TOT"]
  if noRange.contains func = false then
    match rng with
    | .auto => pure ()
    | .val q =>
      match ranges34972.lookup func with
      | none => throw .keyError
      | some none => throw .valueError
      | some (some (minR, maxR)) =>
        if q < minR ∨ q > maxR then return (false, [])
        else pure ()
  let hasNplc : List String := ["VOLT:DC", "CURR:DC", "RES", "FRES", "TEMP"]
  if hasNplc.contains func then
    if nplc < 1/50 ∨ nplc > 200 then return (false, [])
  match checkList34972 scanList with
  | .error e => throw e
  | .ok false => return (false, [])
  | .ok true => pure ()
  let scanListP := "(@" ++ scanList ++ ")"
  let confCmd :=
    if noRange.contains func = false then Cmd34972.conf func rng scanListP
    else if func = "DIG" then Cmd34972.confDigByte scanListP
    else Cmd34972.confDef func scanListP
  let nplcCmds := if hasNplc.contains func then [Cmd34972.setNplc func nplc] else []
  return (true, confCmd :: nplcCmds)

/-- SCPI commands written by `Dvm34411.config`: FUNC:ON "func";
func:RANGE rng; func:NPLC nplc; func:ZERO:AUTO 0/1. -/
inductive Cmd34411 : Type
  | funcOn (func : String)
  | setRange (func : String) (rng : RngArg)
  | setNplc (func : String) (nplc : ℚ)
  | autoZero (func : String) (enabled : Bool)
  deriving DecidableEq

/-- The per-function range dictionary of `Dvm34411.config`
(src/cdvm34411.py lines 77-88). -/
def ranges34411 : List (String × Option (ℚ × ℚ)) :=
  [("CAP", some (1/1000000000, 1/100000)),
   ("CURR:DC", some (1/100000, 3)), ("CURR:AC", some (1/100000, 3)),
   ("FRES", some (100, 1000000000)), ("RES", some (100, 1000000000)),
   ("VOLT:DC", some (1/10, 1000)), ("VOLT:AC", some (1/10, 750)),
   ("FREQ", none), ("PER", none), ("CON", none), ("DIOD", none), ("TEMP", none)]

/-- `Dvm34411.config` (src/cdvm34411.py lines 58-134), modelled as the pair
(returned bool, SCPI commands written). The unknown-function guard has the
same Python comparison-chaining dead code as `Daq34972.configScan`. -/
def config34411 (func : String) (rng : RngArg) (nplc : ℚ) (aZero : Bool) :
    Except PyExc (Bool × List Cmd34411) := do
  let func := pyUpper func
  if (ranges34411.map Prod.fst).contains func && false then
    return (false, [])
  let noRange : List String := ["CON", "DIOD", "FREQ", "PER", "TEMP"]
  if noRange.contains func = false then
    match rng with
    | .auto => pure ()
    | .val q =>
      match ranges34411.lookup func with
      | none => throw .keyError
      | some none => throw .valueError
      | some (some (minR, maxR)) =>
        if q < minR ∨ q > maxR then return (false, [])
        else pure ()
  let hasNplc : List String := ["VOLT:DC", "CURR:DC", "RES", "FRES", "TEMP"]
  if hasNplc.contains func then
    if nplc < 1/1000 ∨ nplc > 100 then return (false, [])
  let rangeCmds := if noRange.contains func = false then [Cmd34411.setRange func rng] else []
  let nplcCmds := if hasNplc.contains func then [Cmd34411.setNplc func nplc] else []
  let azList : List String := ["VOLT:DC", "CURR:DC", "RES", "TEMP"]
  let azCmds := if azList.contains func then [Cmd34411.autoZero func aZero] else []
  return (true, Cmd34411.funcOn func :: (rangeCmds ++ nplcCmds ++ azCmds))

/-- Arm/trigger commands written by `startOverlapped`. -/
inductive ArmCmd : Type
  | trigSourBus
  | sampCoun (n : ℚ)
  | sampSourTim
  | sampTim (period : ℚ)
  | initImm
  | trg
  deriving DecidableEq

/-- `startOverlapped` (textually identical in src/cdaq34972.py lines
241-262 and src/cdvm34411.py lines 180-201): no validation of the timing
arguments; SAMP:COUN is sent the exact quotient `total/period` (Python
float division raises `ZeroDivisionError` when `period` is zero). -/
def startOverlapped (period total : ℚ) : Except PyExc (List ArmCmd) :=
  if period = 0 then .error .zeroDivisionError
  else .ok [ArmCmd.trigSourBus, ArmCmd.sampCoun (total / period),
            ArmCmd.sampSourTim, ArmCmd.sampTim period, ArmCmd.initImm, ArmCmd.trg]

/-- Environment of one `waitOverlappedDone` call: the successive replies
of the device to the DATA:POIN? query, each paired with the elapsed
wall-clock time `time.time() - startTime` at that iteration's deadline
check, and the FIFO buffer of replies to the `R? 1;` drain reads. -/
structure PollEnv : Type where
  replies : List (String × ℚ)
  buffer : List String

/-- The polling loop shared verbatim by `Daq34972.waitOverlappedDone`
(src/cdaq34972.py lines 275-289) and `Dvm34411.waitOverlappedDone`
(src/cdvm34411.py lines 214-228): ask DATA:POIN?, strip, `int(...)`;
break (`.ok true`) when the parsed counter equals `count`; only on a
mismatch compare the elapsed time with the timeout (strict `>`, `.ok
false` models the Python `return False`). An exhausted reply list models
a transport failure of the next ask. -/
def pollCounter (count : ℤ) (timeout : ℚ) : List (String × ℚ) → Except PyExc Bool
  | [] => .error .transportError
  | (reply, elapsed) :: rest =>
    match pyInt? (stripCh reply.data) with
    | none => .error .valueError
    | some m =>
      if m = count then .ok true
      else if elapsed > timeout then .ok false
      else pollCounter count timeout rest

/-- The drain loop of `Daq34972.waitOverlappedDone` (src/cdaq34972.py
lines 291-313): `count` sequential `R? 1;` reads, each decoded through the
DLB branch with a final `float(...)`; the first reading whose marker is
missing makes the whole call return `False` (`.ok none`). -/
def drain34972 : List String → ℕ → Except PyExc (Option (List ℚ))
  | _, 0 => .ok (some [])
  | [], _ + 1 => .error .transportError
  | r :: rest, n + 1 =>
    match decodeDLB34972 r.data with
    | .error e => .error e
    | .ok none => .ok none
    | .ok (some q) =>
      match drain34972 rest n with
      | .error e => .error e
      | .ok none => .ok none
      | .ok (some qs) => .ok (some (q :: qs))

/-- The drain loop of `Dvm34411.waitOverlappedDone` (src/cdvm34411.py
lines 230-246): identical header handling, but each sample is appended as
the stripped payload string — `float` is never applied. -/
def drain34411 : List String → ℕ → Except PyExc (Option (List String))
  | _, 0 => .ok (some [])
  | [], _ + 1 => .error .transportError
  | r :: rest, n + 1 =>
    match decodeDLB34411 r.data with
    | .error e => .error e
    | .ok none => .ok none
    | .ok (some p) =>
      match drain34411 rest n with
      | .error e => .error e
      | .ok none => .ok none
      | .ok (some ps) => .ok (some (p.asString :: ps))

/-- `Daq34972.waitOverlappedDone` (src/cdaq34972.py lines 264-313):
poll the sample counter, then drain `count` block-encoded readings.
`.ok none` models the Python `return False` (timeout or format error). -/
def waitOverlappedDone34972 (env : PollEnv) (count : ℤ) (timeout : ℚ) :
    Except PyExc (Option (List ℚ)) :=
  match pollCounter count timeout env.replies with
  | .error e => .error e
  | .ok false => .ok none
  | .ok true => drain34972 env.buffer count.toNat

/-- `Dvm34411.waitOverlappedDone` (src/cdvm34411.py lines 203-246): same
protocol, but the drained samples are the undecoded payload strings. -/
def waitOverlappedDone34411 (env : PollEnv) (count : ℤ) (timeout : ℚ) :
    Except PyExc (Option (List String)) :=
  match pollCounter count timeout env.replies with
  | .error e => .error e
  | .ok false => .ok none
  | .ok true => drain34411 env.buffer count.toNat

/-- The `Errors` class of src/error.py (lines 9-20): a bare failure
counter, cleared at construction, bumped by one per recorded failure. -/
structure Errors : Type where
  errorCount : ℕ
  deriving DecidableEq

/-- `Errors.bumpError` (src/error.py line 16). -/
def Errors.bumpError (e : Errors) : Errors := ⟨e.errorCount + 1⟩

/-- `Errors.getErrorCount` (src/error.py line 19). -/
def Errors.getErrorCount (e : Errors) : ℕ := e.errorCount

/-- Records written to the external logger by `chkLimits`; the `hex` flag
only selects the display format of the same data. -/
inductive LogEvent : Type
  | failLine (name : String) (value mn mx : ℚ) (unit : String) (hex : Bool)
  | passLine (name : String) (value mn mx : ℚ) (unit : String) (hex : Bool)
  deriving DecidableEq

/-- `chkLimits` of src/error.py (lines 22-46): the Python test
`not Min < value < Max` chains to `not (Min < value and value < Max)`;
on failure it logs a failure line, bumps the shared error counter and
returns `False`; on success it logs a pass line and returns `True`.
Result: (returned bool, error-counter state after the call, log lines). -/
def chkLimits (name : String) (value mn mx : ℚ) (unit : String) (hex : Bool)
    (err : Errors) : Bool × Errors × List LogEvent :=
  if ¬(mn < value ∧ value < mx) then
    (false, err.bumpError, [LogEvent.failLine name value mn mx unit hex])
  else
    (true, err, [LogEvent.passLine name value mn mx unit hex])

/-! Infrastructure lemmas: the decimal rendering `toString (n : ℕ)` is a
nonempty run of digit characters whose value `pyInt?` recovers. -/

/-- Number of decimal digits of a natural number. -/
def numDigits (n : ℕ) : ℕ :=
  if h : n < 10 then 1 else numDigits (n / 10) + 1
decreasing_by exact Nat.div_lt_self (by omega) (by omega)

theorem digitChar_spec : ∀ d : ℕ, d < 10 →
    ('0' ≤ Nat.digitChar d ∧ Nat.digitChar d ≤ '9') ∧ digitVal? (Nat.digitChar d) = some d := by
  decide

theorem digitsLoop_toDigitsCore (n : ℕ) : ∀ (fuel : ℕ) (acc : List Char) (v : ℕ),
    n < fuel →
    digitsLoop (Nat.toDigitsCore 10 fuel n acc) v = digitsLoop acc (v * 10 ^ numDigits n + n) := by
  induction n using Nat.strong_induction_on with
  | _ n ih =>
    intro fuel acc v hfuel
    match fuel with
    | 0 => omega
    | fuel + 1 =>
      have hmod : n % 10 < 10 := Nat.mod_lt _ (by omega)
      have hdig := (digitChar_spec (n % 10) hmod).2
      simp only [Nat.toDigitsCore]
      by_cases h : n / 10 = 0
      · have hlt : n < 10 := by omega
        have hmodn : n % 10 = n := by omega
        simp only [h, if_pos rfl, digitsLoop, hdig]
        rw [show numDigits n = 1 from by rw [numDigits]; simp [hlt]]
        rw [hmodn]
        congr 1
        ring
      · have hge : 10 ≤ n := by omega
        have hdivlt : n / 10 < n := Nat.div_lt_self (by omega) (by omega)
        have hdivfuel : n / 10 < fuel := by omega
        rw [if_neg h, ih (n / 10) hdivlt fuel _ v hdivfuel]
        simp only [digitsLoop, hdig]
        rw [show numDigits n = numDigits (n / 10) + 1 from by
          conv_lhs => rw [numDigits]
          simp [Nat.not_lt.mpr hge]]
        congr 1
        have hdm : 10 * (n / 10) + n % 10 = n := Nat.div_add_mod n 10
        have hp : v * 10 ^ (numDigits (n / 10) + 1) = v * 10 ^ numDigits (n / 10) * 10 := by
          ring
        omega

theorem toDigitsCore_ne_nil_of_acc : ∀ (fuel n : ℕ) (acc : List Char), acc ≠ [] →
    Nat.toDigitsCore 10 fuel n acc ≠ [] := by
  intro fuel
  induction fuel with
  | zero => intro n acc h; simpa [Nat.toDigitsCore] using h
  | succ fuel ih =>
    intro n acc h
    simp only [Nat.toDigitsCore]
    by_cases hz : n / 10 = 0
    · simp [hz]
    · rw [if_neg hz]
      exact ih _ _ (by simp)

theorem toDigits_ne_nil (n : ℕ) : Nat.toDigits 10 n ≠ [] := by
  rw [Nat.toDigits]
  simp only [Nat.toDigitsCore]
  by_cases hz : n / 10 = 0
  · simp [hz]
  · rw [if_neg hz]
    exact toDigitsCore_ne_nil_of_acc _ _ _ (by simp)

theorem toDigitsCore_digits : ∀ (fuel n : ℕ) (acc : List Char),
    (∀ c ∈ acc, '0' ≤ c ∧ c ≤ '9') →
    ∀ c ∈ Nat.toDigitsCore 10 fuel n acc, '0' ≤ c ∧ c ≤ '9' := by
  intro fuel
  induction fuel with
  | zero => intro n acc hacc; simpa [Nat.toDigitsCore] using hacc
  | succ fuel ih =>
    intro n acc hacc
    have hd := (digitChar_spec (n % 10) (Nat.mod_lt _ (by omega))).1
    have hcons : ∀ c ∈ Nat.digitChar (n % 10) :: acc, '0' ≤ c ∧ c ≤ '9' := by
      intro c hc
      rcases List.mem_cons.mp hc with h | h
      · exact h ▸ hd
      · exact hacc c h
    simp only [Nat.toDigitsCore]
    by_cases hz : n / 10 = 0
    · simpa [hz] using hcons
    · rw [if_neg hz]
      exact ih _ _ hcons

theorem toDigits_digits (n : ℕ) : ∀ c ∈ Nat.toDigits 10 n, '0' ≤ c ∧ c ≤ '9' :=
  toDigitsCore_digits _ _ _ (by simp)

theorem digit_not_special {c : Char} (h : '0' ≤ c ∧ c ≤ '9') :
    c.isWhitespace = false ∧ c ≠ ':' ∧ c ≠ ',' ∧ c ≠ '+' ∧ c ≠ '-' := by
  obtain ⟨h1, h2⟩ := h
  have w1 : c ≠ ' ' := fun e => by subst e; exact absurd h1 (by decide)
  have w2 : c ≠ '\t' := fun e => by subst e; exact absurd h1 (by decide)
  have w3 : c ≠ '\r' := fun e => by subst e; exact absurd h1 (by decide)
  have w4 : c ≠ '\n' := fun e => by subst e; exact absurd h1 (by decide)
  refine ⟨by simp [Char.isWhitespace, w1, w2, w3, w4], ?_, ?_, ?_, ?_⟩
  · exact fun e => by subst e; exact absurd h2 (by decide)
  · exact fun e => by subst e; exact absurd h1 (by decide)
  · exact fun e => by subst e; exact absurd h1 (by decide)
  · exact fun e => by subst e; exact absurd h1 (by decide)

theorem dropWhile_eq_self_of {p : Char → Bool} {l : List Char}
    (h : ∀ c ∈ l, p c = false) : l.dropWhile p = l := by
  cases l with
  | nil => rfl
  | cons c cs => simp [List.dropWhile_cons, h c (by simp)]

theorem stripCh_eq_self {l : List Char} (h : ∀ c ∈ l, c.isWhitespace = false) :
    stripCh l = l := by
  unfold stripCh
  rw [dropWhile_eq_self_of h,
    dropWhile_eq_self_of (fun c hc => h c (by simpa using hc)), List.reverse_reverse]

theorem splitCh_eq_single {sep : Char} {l : List Char} (h : sep ∉ l) :
    splitCh sep l = [l] := by
  induction l with
  | nil => rfl
  | cons c cs ih =>
    rw [List.mem_cons, not_or] at h
    have hc : ¬c = sep := fun e => h.1 e.symm
    simp [splitCh, hc, ih h.2]

theorem splitCh_append {sep : Char} {A B : List Char} (h : sep ∉ A) :
    splitCh sep (A ++ sep :: B) = A :: splitCh sep B := by
  induction A with
  | nil => simp [splitCh]
  | cons a A ih =>
    rw [List.mem_cons, not_or] at h
    have ha : ¬a = sep := fun e => h.1 e.symm
    simp [splitCh, ha, ih h.2]

theorem natDigits?_toDigits (n : ℕ) : natDigits? (Nat.toDigits 10 n) = some n := by
  have h1 := toDigits_ne_nil n
  have h2 := digitsLoop_toDigitsCore n (n + 1) [] 0 (by omega)
  rw [show Nat.toDigits 10 n = Nat.toDigitsCore 10 (n + 1) n [] from rfl] at h1 ⊢
  cases hl : Nat.toDigitsCore 10 (n + 1) n [] with
  | nil => exact absurd hl h1
  | cons c cs =>
    rw [hl] at h2
    simpa [natDigits?, digitsLoop] using h2

theorem pyInt?_toDigits (n : ℕ) : pyInt? (Nat.toDigits 10 n) = some (n : ℤ) := by
  have hd := toDigits_digits n
  have hstrip : stripCh (Nat.toDigits 10 n) = Nat.toDigits 10 n :=
    stripCh_eq_self (fun c hc => (digit_not_special (hd c hc)).1)
  unfold pyInt?
  rw [hstrip]
  cases hl : Nat.toDigits 10 n with
  | nil => exact absurd hl (toDigits_ne_nil n)
  | cons c cs =>
    have hc := hd c (by rw [hl]; exact List.mem_cons_self c cs)
    have hp : ¬c = '+' := (digit_not_special hc).2.2.2.1
    have hm : ¬c = '-' := (digit_not_special hc).2.2.2.2
    have := natDigits?_toDigits n
    rw [hl] at this
    simp [hp, hm, this]

theorem checkList34972_single (n : ℕ) :
    checkList34972 (toString n) =
      if 101 ≤ n ∧ n ≤ 440 then Except.ok true else Except.ok false := by
  have hd := toDigits_digits n
  have hstrip : stripCh (Nat.toDigits 10 n) = Nat.toDigits 10 n :=
    stripCh_eq_self (fun c hc => (digit_not_special (hd c hc)).1)
  have hcolon : ':' ∉ Nat.toDigits 10 n := fun hm => absurd (hd ':' hm) (by decide)
  have hcomma : ',' ∉ Nat.toDigits 10 n := fun hm => absurd (hd ',' hm) (by decide)
  show checkItems34972 (splitCh ',' (toString n).data) = _
  rw [show (toString n).data = Nat.toDigits 10 n from rfl, splitCh_eq_single hcomma]
  simp only [checkItems34972, hstrip, if_neg hcolon, pyInt?_toDigits]
  split_ifs <;> first | rfl | (exfalso; omega)

theorem checkList34972_pair (a b : ℕ) :
    checkList34972 (toString a ++ ":" ++ toString b) =
      if b < a then Except.ok false
      else if 101 ≤ a ∧ a ≤ 399 ∧ 101 ≤ b ∧ b ≤ 399 then Except.ok true
      else Except.ok false := by
  have hda := toDigits_digits a
  have hdb := toDigits_digits b
  have hmem : ∀ c ∈ Nat.toDigits 10 a ++ ':' :: Nat.toDigits 10 b,
      ('0' ≤ c ∧ c ≤ '9') ∨ c = ':' := by
    intro c hc
    rcases List.mem_append.mp hc with h | h
    · exact Or.inl (hda c h)
    · rcases List.mem_cons.mp h with h | h
      · exact Or.inr h
      · exact Or.inl (hdb c h)
  have hws : ∀ c ∈ Nat.toDigits 10 a ++ ':' :: Nat.toDigits 10 b, c.isWhitespace = false := by
    intro c hc
    rcases hmem c hc with h | h
    · exact (digit_not_special h).1
    · subst h; decide
  have hcomma : ',' ∉ Nat.toDigits 10 a ++ ':' :: Nat.toDigits 10 b := by
    intro hm
    rcases hmem ',' hm with h | h
    · exact absurd h (by decide)
    · exact absurd h (by decide)
  have hcA : ':' ∉ Nat.toDigits 10 a := fun hm => absurd (hda ':' hm) (by decide)
  have hcB : ':' ∉ Nat.toDigits 10 b := fun hm => absurd (hdb ':' hm) (by decide)
  have hdata : (toString a ++ ":" ++ toString b).data
      = Nat.toDigits 10 a ++ ':' :: Nat.toDigits 10 b := by
    simp [String.data_append]
    rfl
  show checkItems34972 (splitCh ',' (toString a ++ ":" ++ toString b).data) = _
  rw [hdata, splitCh_eq_single hcomma]
  simp only [checkItems34972, stripCh_eq_self hws,
    if_pos (show ':' ∈ Nat.toDigits 10 a ++ ':' :: Nat.toDigits 10 b from
      List.mem_append_right _ (List.mem_cons_self _ _)),
    splitCh_append hcA, splitCh_eq_single hcB, pyInt?_toDigits]
  split_ifs <;> first | rfl | (exfalso; omega)

/-- C1, counterexample: at the spec's own probe `decodeBlock("#29" + "1"*9)`,
where the declared block length (91, or any reading of the length digits)
exceeds the nine available payload bytes, the decoder does not fail with any
error — it skips the two length digits and happily parses the remaining
eight bytes as the number 11111111. -/
theorem c1_counterexample :
    decodeDLB34972 ("#29111111111".data) = .ok (some 11111111) := by
  norm_num +decide [decodeDLB34972, pyFloat?, stripCh, spanDigits, digitsToNat,
    digitVal?, Char.isWhitespace]

/-- C1 (amended): for a reply `#` + digit-count character + tail, the DLB
branch of `waitOverlappedDone` reads the single digit count `d`, skips the
next `d` length digits without ever parsing them as a byte count, and takes
all remaining bytes (stripped) as the numeric payload; no comparison of the
declared length with the available bytes is made, so an overlong declared
length is not rejected. The 34411 variant returns the stripped payload
without the final float conversion. -/
theorem c1_prop (cd : Char) (d : ℕ) (tail : List Char) (q : ℚ)
    (hd : digitVal? cd = some d)
    (hq : pyFloat? (stripCh (tail.drop d)) = some q) :
    decodeDLB34972 ('#' :: cd :: tail) = .ok (some q)
    ∧ decodeDLB34411 ('#' :: cd :: tail) = .ok (some (stripCh (tail.drop d))) := by
  have hdrop : ('#' :: cd :: tail).drop (2 + d) = tail.drop d := by
    rw [show 2 + d = d + 1 + 1 from by omega]
    rw [List.drop_succ_cons, List.drop_succ_cons]
  constructor
  · simp [decodeDLB34972, hd, hdrop, hq]
  · simp [decodeDLB34411, hd, hdrop]

/-- C1, witness: concrete instance of the amended theorem on the
well-formed block "#15+1.25". -/
theorem c1_witness :
    digitVal? '1' = some 1
    ∧ pyFloat? (stripCh (("5+1.25".data).drop 1)) = some (5/4)
    ∧ decodeDLB34972 ('#' :: '1' :: "5+1.25".data) = .ok (some (5/4)) := by
  have hq : pyFloat? (stripCh (("5+1.25".data).drop 1)) = some (5/4) := by
    norm_num +decide [pyFloat?, stripCh, spanDigits, digitsToNat, digitVal?,
      Char.isWhitespace]
  exact ⟨by decide, hq, (c1_prop '1' 1 ("5+1.25".data) (5/4) (by decide) hq).1⟩

/-- C2, counterexample: `startOverlapped(-1, 5)` has `period ≤ 0` yet does
not fail — it arms the device (sending SAMP:COUN -5); and
`startOverlapped(2, 5)` arms with the exact quotient 5/2, not
`ceil(5/2) = 3`. -/
theorem c2_counterexample :
    startOverlapped (-1) 5 = .ok [ArmCmd.trigSourBus, ArmCmd.sampCoun (-5),
      ArmCmd.sampSourTim, ArmCmd.sampTim (-1), ArmCmd.initImm, ArmCmd.trg]
    ∧ startOverlapped 2 5 = .ok [ArmCmd.trigSourBus, ArmCmd.sampCoun (5/2),
      ArmCmd.sampSourTim, ArmCmd.sampTim 2, ArmCmd.initImm, ArmCmd.trg]
    ∧ (5/2 : ℚ) ≠ 3 := by
  refine ⟨by norm_num [startOverlapped], by norm_num [startOverlapped], by norm_num⟩

/-- C2 (amended): `startOverlapped(period, totalDuration)` performs no
timing validation at all: for every nonzero period (positive or not) it
arms the device with the exact float quotient totalDuration/period as the
sample count (no ceiling, no InvalidTiming failure), and a zero period
raises `ZeroDivisionError` instead of a typed failure. -/
theorem c2_prop (p t : ℚ) :
    (p ≠ 0 → startOverlapped p t = .ok [ArmCmd.trigSourBus, ArmCmd.sampCoun (t / p),
      ArmCmd.sampSourTim, ArmCmd.sampTim p, ArmCmd.initImm, ArmCmd.trg])
    ∧ startOverlapped 0 t = .error .zeroDivisionError := by
  constructor
  · intro h
    simp [startOverlapped, h]
  · simp [startOverlapped]

/-- C2, witness: concrete instance of the amended theorem at
period 2, total 5. -/
theorem c2_witness :
    (2 : ℚ) ≠ 0
    ∧ startOverlapped 2 5 = .ok [ArmCmd.trigSourBus, ArmCmd.sampCoun (5 / 2),
      ArmCmd.sampSourTim, ArmCmd.sampTim 2, ArmCmd.initImm, ArmCmd.trg] :=
  ⟨by norm_num, (c2_prop 2 5).1 (by norm_num)⟩

/-- C3 (code bug): the unknown-function guard of `Daq34972.configScan` and
`Dvm34411.config` is dead code (Python comparison chaining in
`func in list(ranges.keys()) == False`), so a function name absent from
the legality table is NOT rejected: with the default AUTO range the call
returns True and sends configuration commands naming the bogus function
to the instrument. -/
theorem c3_prop :
    configScan34972 "101" "BOGUS" RngArg.auto 1
      = .ok (true, [Cmd34972.conf "BOGUS" RngArg.auto "(@101)"])
    ∧ config34411 "BOGUS" RngArg.auto 1 true
      = .ok (true, [Cmd34411.funcOn "BOGUS", Cmd34411.setRange "BOGUS" RngArg.auto]) := by
  have hup : pyUpper "BOGUS" = "BOGUS" := by decide
  constructor
  · have hpure : ∀ x : Bool × List Cmd34972,
        (pure x : Except PyExc (Bool × List Cmd34972)) = Except.ok x := fun _ => rfl
    norm_num +decide [configScan34972, checkList34972, checkItems34972, stripCh,
      splitCh, pyInt?, natDigits?, digitsLoop, digitVal?, ranges34972,
      Char.isWhitespace, hup, hpure]
  · have hpure : ∀ x : Bool × List Cmd34411,
        (pure x : Except PyExc (Bool × List Cmd34411)) = Except.ok x := fun _ => rfl
    norm_num +decide [config34411, ranges34411, hup, hpure]

/-- C4 (code bug): on an identical successful acquisition (counter reply
"1", one buffered block "#15+1.00"), `Dvm34411.waitOverlappedDone` returns
the undecoded payload string "+1.00" — its drain loop appends
`reading.strip()` without the float conversion its own docstring promises —
while `Daq34972.waitOverlappedDone` returns the decoded float 1.0. -/
theorem c4_prop :
    waitOverlappedDone34411 ⟨[("1", 0)], ["#15+1.00"]⟩ 1 5 = .ok (some ["+1.00"])
    ∧ waitOverlappedDone34972 ⟨[("1", 0)], ["#15+1.00"]⟩ 1 5 = .ok (some [1]) := by
  constructor
  · decide
  · norm_num +decide [waitOverlappedDone34972, pollCounter, drain34972,
      decodeDLB34972, pyFloat?, stripCh, spanDigits, digitsToNat, digitVal?,
      Char.isWhitespace, pyInt?, natDigits?, digitsLoop]

/-- C5 (code bug): `Daq34972.checkList` converts items with bare `int(...)`
calls, so a malformed integer item ("abc") or a malformed range item
("1:2:3", whose two-variable unpacking fails) raises an uncaught
`ValueError` instead of returning the documented False. -/
theorem c5_prop :
    checkList34972 "abc" = .error .valueError
    ∧ checkList34972 "1:2:3" = .error .valueError := by
  refine ⟨by decide, by decide⟩

/-- C6: for every range item `a:b` with `a > b` (decimal renderings of any
naturals), `Daq34972.checkList` rejects with the range-order failure,
regardless of whether the endpoints are individually valid channels — the
order test runs before the endpoint validity test. -/
theorem c6_prop (a b : ℕ) (h : b < a) :
    checkList34972 (toString a ++ ":" ++ toString b) = .ok false := by
  rw [checkList34972_pair]
  simp [h]

/-- C6, witness: the range 300:200 with both endpoints individually valid
(101 ≤ 300, 200 ≤ 399) is still rejected. -/
theorem c6_witness :
    200 < 300 ∧ checkList34972 (toString 300 ++ ":" ++ toString 200) = .ok false :=
  ⟨by norm_num, c6_prop 300 200 (by norm_num)⟩

/-- C7: `chkLimits("Vout", 3.3, 3.0, 3.6)` passes and leaves the error
counter unchanged; `chkLimits("Vout", 3.9, 3.0, 3.6)` fails and bumps the
counter by exactly one; no `chkLimits` call ever decreases the counter, and
the only mutator `bumpError` increments by exactly one. -/
theorem c7_prop (err : Errors) (unit : String) :
    (chkLimits "Vout" (33/10) 3 (18/5) unit false err).1 = true
    ∧ (chkLimits "Vout" (33/10) 3 (18/5) unit false err).2.1 = err
    ∧ (chkLimits "Vout" (39/10) 3 (18/5) unit false err).1 = false
    ∧ (chkLimits "Vout" (39/10) 3 (18/5) unit false err).2.1.errorCount = err.errorCount + 1
    ∧ (∀ (name : String) (v mn mx : ℚ) (u : String) (hx : Bool) (e : Errors),
        e.errorCount ≤ (chkLimits name v mn mx u hx e).2.1.errorCount)
    ∧ (∀ e : Errors, (Errors.bumpError e).errorCount = e.errorCount + 1) := by
  refine ⟨?_, ?_, ?_, ?_, ?_, fun e => rfl⟩
  · rw [chkLimits, if_neg (not_not_intro (by norm_num))]
  · rw [chkLimits, if_neg (not_not_intro (by norm_num))]
  · rw [chkLimits, if_pos (by norm_num)]
  · rw [chkLimits, if_pos (by norm_num)]
    rfl
  · intro name v mn mx u hx e
    rw [chkLimits]
    split_ifs <;> simp [Errors.bumpError]

/-- C8: in `Daq34972.checkList` a singleton item is accepted exactly when
101 ≤ n ≤ 440, while a range endpoint is accepted exactly when
101 ≤ n ≤ 399 (shown on ranges n:n, where order never rejects); channel
405 witnesses the discrepancy: valid as a singleton, invalid as a range
endpoint. -/
theorem c8_prop :
    (∀ n : ℕ, checkList34972 (toString n) = .ok true ↔ 101 ≤ n ∧ n ≤ 440)
    ∧ (∀ n : ℕ, checkList34972 (toString n ++ ":" ++ toString n) = .ok true
        ↔ 101 ≤ n ∧ n ≤ 399)
    ∧ checkList34972 "405" = .ok true
    ∧ checkList34972 "405:405" = .ok false := by
  refine ⟨?_, ?_, by decide, by decide⟩
  · intro n
    rw [checkList34972_single]
    split_ifs with h
    · simp [h]
    · simp [h]
  · intro n
    rw [checkList34972_pair, if_neg (lt_irrefl n)]
    split_ifs with h
    · simp only [true_iff]
      exact ⟨h.1, h.2.1⟩
    · constructor
      · intro he
        exact absurd he (by simp)
      · intro hn
        exact absurd ⟨hn.1, hn.2, hn.1, hn.2⟩ h

/-- C8, witness: instance of the singleton characterisation at 405. -/
theorem c8_witness : checkList34972 (toString 405) = .ok true :=
  (c8_prop.1 405).mpr (by norm_num)

/-- C9: `chkLimits` treats the bounds as strictly exclusive
(`Min < value < Max`): a value exactly equal to either bound fails the
check and bumps the error counter by one. -/
theorem c9_prop (name : String) (v mn mx : ℚ) (u : String) (hx : Bool)
    (e : Errors) (h : v = mn ∨ v = mx) :
    (chkLimits name v mn mx u hx e).1 = false
    ∧ (chkLimits name v mn mx u hx e).2.1.errorCount = e.errorCount + 1 := by
  have hne : ¬(mn < v ∧ v < mx) := by
    rcases h with h | h
    · subst h
      rintro ⟨h1, _⟩
      exact lt_irrefl _ h1
    · subst h
      rintro ⟨_, h2⟩
      exact lt_irrefl _ h2
  rw [chkLimits, if_pos hne]
  exact ⟨rfl, rfl⟩

/-- C9, witness: a value equal to the lower bound (3 ∈ check(3, 3, 4))
fails and bumps the counter from 0 to 1. -/
theorem c9_witness :
    ((3 : ℚ) = 3 ∨ (3 : ℚ) = 4)
    ∧ (chkLimits "Vout" 3 3 4 "V" false ⟨0⟩).1 = false
    ∧ (chkLimits "Vout" 3 3 4 "V" false ⟨0⟩).2.1.errorCount = 0 + 1 :=
  ⟨Or.inl rfl, c9_prop "Vout" 3 3 4 "V" false ⟨0⟩ (Or.inl rfl)⟩

/-- C10: both `waitOverlappedDone` implementations query the sample counter
before evaluating the deadline: whenever the first DATA:POIN? reply already
parses to `count`, the call proceeds directly to the drain loop for every
timeout value, zero and negative included — the timeout is never consulted. -/
theorem c10_prop (env : PollEnv) (count : ℤ) (timeout : ℚ)
    (r : String) (e : ℚ) (rest : List (String × ℚ))
    (hrep : env.replies = (r, e) :: rest)
    (hparse : pyInt? (stripCh r.data) = some count) :
    waitOverlappedDone34972 env count timeout = drain34972 env.buffer count.toNat
    ∧ waitOverlappedDone34411 env count timeout = drain34411 env.buffer count.toNat := by
  have hpoll : pollCounter count timeout env.replies = .ok true := by
    rw [hrep]
    simp [pollCounter, hparse]
  constructor
  · rw [waitOverlappedDone34972, hpoll]
  · rw [waitOverlappedDone34411, hpoll]

/-- C10, witness: with a negative timeout (-1) and first counter reply "2",
the call still drains and returns both samples. -/
theorem c10_witness :
    pyInt? (stripCh ("2".data)) = some 2
    ∧ waitOverlappedDone34972 ⟨[("2", 100)], ["#15+1.25", "#15+1.25"]⟩ 2 (-1)
        = drain34972 ["#15+1.25", "#15+1.25"] 2
    ∧ drain34972 ["#15+1.25", "#15+1.25"] 2 = .ok (some [5/4, 5/4]) :=
  ⟨by decide,
    (c10_prop ⟨[("2", 100)], ["#15+1.25", "#15+1.25"]⟩ 2 (-1) "2" 100 [] rfl
      (by decide)).1,
    by norm_num +decide [drain34972, decodeDLB34972, pyFloat?, stripCh, spanDigits,
      digitsToNat, digitVal?, Char.isWhitespace]⟩

end Netsuite
